import Mathlib

/-!
Verification of the convoy reactive live-query engine against its
natural-language specification.

The definitions below are shallow embeddings of the TypeScript source:

* server-side subscription registry and per-subscription single-flight
  execution (createQuerySubscriptionManager, runSubscription, queueRefresh,
  writeSse, canAccept, subscribe);
* the schema-validated JSONB document store (createDb: insert, get, patch,
  and the SQL fragment builders fieldForComparison, buildWhere, buildOrder),
  together with the self-describing id helpers (encodeId, parseId, isUuid);
* the client-side subscription hub (scheduleReconnect, attachEventSource,
  the useQuery onStatus handler).

Asynchronous code is embedded as explicit state-transition functions: each
function models one synchronous JavaScript turn of the original code, and
event lists model interleavings of those turns.
-/

namespace Convoy

/-! ## JSON values and JS objects

JS objects are embedded as association lists in literal order; a later
binding shadows an earlier one, exactly as in a JS object literal or a
Postgres jsonb concatenation. -/

inductive JsonVal : Type where
  | str (s : List Char)
  | num (n : Int)
  | boolB (b : Bool)
  | nullV
deriving DecidableEq

/-- A JS object: association list of fields, later bindings shadow earlier
ones. -/
abbrev Obj := List (String × JsonVal)

/-- Field lookup on a JS object; the last binding for a key wins, matching
JS object-literal and jsonb-concatenation semantics. -/
def lookupObj : Obj → String → Option JsonVal
  | [], _ => none
  | p :: rest, k =>
    match lookupObj rest k with
    | some v => some v
    | none => if p.1 = k then some p.2 else none

/-- Deep equality of JS objects: same value at every key. -/
def objEquiv (a b : Obj) : Prop := ∀ k, lookupObj a k = lookupObj b k

theorem lookupObj_append (a b : Obj) (k : String) :
    lookupObj (a ++ b) k =
      match lookupObj b k with
      | some v => some v
      | none => lookupObj a k := by
  induction a with
  | nil => cases h : lookupObj b k <;> simp [lookupObj, h]
  | cons p rest ih =>
    simp only [List.cons_append, lookupObj]
    rw [show rest.append b = rest ++ b from rfl, ih]
    cases h : lookupObj b k <;> cases h2 : lookupObj rest k <;> simp [h, h2]

/-! ## Error payloads and SSE frames (src errors.ts / node handler) -/

inductive ErrorCode : Type where
  | UNAUTHORIZED | FORBIDDEN | INVALID_ARGS | NOT_FOUND | CONFLICT
  | RATE_LIMITED | PAYLOAD_TOO_LARGE | METHOD_NOT_ALLOWED | INTERNAL
deriving DecidableEq

/-- ConvoyErrorPayload: code, message, optional details. -/
structure ErrPayload : Type where
  code : ErrorCode
  message : String
  details : Option Obj
deriving DecidableEq

/-- The JS exception values that can reach normalizeError in the node
handler: a ConvoyError (carrying its status and payload), a ZodError, or
any other Error. -/
inductive JsError : Type where
  | convoy (status : Nat) (payload : ErrPayload)
  | zod (message : String)
  | other (message : String)
deriving DecidableEq

/-- normalizeError from the node handler: ConvoyError keeps its own status
and payload, ZodError maps to 400 INVALID_ARGS, anything else to 500
INTERNAL. -/
def normalizeError : JsError → Nat × ErrPayload
  | .convoy status payload => (status, payload)
  | .zod message => (400, ⟨.INVALID_ARGS, message, none⟩)
  | .other message => (500, ⟨.INTERNAL, message, none⟩)

/-- One SSE data frame, shaped as the QuerySubscriptionMessage union:
a result frame carrying data, or an error frame carrying a structured
ConvoyErrorPayload. -/
inductive SseFrame : Type where
  | result (name : String) (ts : Nat) (data : JsonVal)
  | errorFrame (name : String) (ts : Nat) (payload : ErrPayload)
deriving DecidableEq

/-! ## Server-side subscription connection (createQuerySubscriptionManager)

One QuerySubscription of the registry, with the observables needed to
state the claims: the number of query executions begun (fn.run calls) and
the frames written to its response stream. Each transition function below
is one synchronous JS turn of the source. -/

structure SubConnState : Type where
  /-- name of the subscribed query -/
  name : String
  /-- res.writableEnded or res.destroyed -/
  resClosed : Bool
  /-- membership in the manager's subscriptions set -/
  registered : Bool
  /-- the running flag of the subscription -/
  running : Bool
  /-- the pending flag of the subscription -/
  pending : Bool
  /-- how many fn.run executions have begun for this subscription -/
  runsStarted : Nat
  /-- frames written so far to this subscription's response stream -/
  frames : List SseFrame
deriving DecidableEq

/-- writeSse: skips the write when the response stream has ended or been
destroyed, otherwise appends one data frame. -/
def writeSse (s : SubConnState) (f : SseFrame) : SubConnState :=
  if s.resClosed then s else { s with frames := s.frames ++ [f] }

/-- The synchronous prefix of runSubscription: if the response stream is
already closed the subscription is removed from the set and nothing runs;
otherwise running is set and one execution of fn.run begins. -/
def runSubscriptionStart (s : SubConnState) : SubConnState :=
  if s.resClosed then { s with registered := false }
  else { s with running := true, runsStarted := s.runsStarted + 1 }

/-- The completion turn of runSubscription: frame the result or the
normalized error, clear running, and if pending was set launch exactly one
trailing re-execution with pending cleared. -/
def runSubscriptionFinish (outcome : Except JsError JsonVal) (ts : Nat)
    (s : SubConnState) : SubConnState :=
  let framed :=
    match outcome with
    | .ok d => writeSse s (.result s.name ts d)
    | .error e => writeSse s (.errorFrame s.name ts (normalizeError e).2)
  let done := { framed with running := false }
  if done.pending then runSubscriptionStart { done with pending := false }
  else done

/-- queueRefresh: a refresh offer while running only sets pending;
otherwise it starts runSubscription. -/
def queueRefresh (s : SubConnState) : SubConnState :=
  if s.running then { s with pending := true } else runSubscriptionStart s

/-- A burst of k refresh offers delivered one after the other. -/
def offerBurst : Nat → SubConnState → SubConnState
  | 0, s => s
  | k + 1, s => offerBurst k (queueRefresh s)

theorem offerBurst_of_running (k : Nat) (s : SubConnState)
    (h : s.running = true) :
    offerBurst (k + 1) s = { s with pending := true } := by
  induction k generalizing s with
  | zero => simp [offerBurst, queueRefresh, h]
  | succ n ih =>
    have step : queueRefresh s = { s with pending := true } := by
      simp [queueRefresh, h]
    calc offerBurst (n + 2) s
        = offerBurst (n + 1) (queueRefresh s) := rfl
      _ = offerBurst (n + 1) { s with pending := true } := by rw [step]
      _ = { s with pending := true } := by
          have := ih { s with pending := true } h
          simpa using this

/-- The subscriptions set of the manager, as the list of per-subscription
states; refreshAll and execution completions act on one element at a time
(JS turns are serialized). -/
def updateAt : Nat → (SubConnState → SubConnState) → List SubConnState →
    List SubConnState
  | _, _, [] => []
  | 0, f, x :: xs => f x :: xs
  | n + 1, f, x :: xs => x :: updateAt n f xs

theorem updateAt_get_ne (f : SubConnState → SubConnState) :
    ∀ (i j : Nat) (l : List SubConnState), i ≠ j →
      (updateAt i f l)[j]? = l[j]? := by
  intro i j l
  induction l generalizing i j with
  | nil => intro _; simp [updateAt]
  | cons x xs ih =>
    intro hij
    cases i with
    | zero =>
      cases j with
      | zero => exact absurd rfl hij
      | succ m => simp [updateAt]
    | succ n =>
      cases j with
      | zero => simp [updateAt]
      | succ m =>
        have : n ≠ m := by
          intro h
          exact hij (by rw [h])
        simp [updateAt, ih n m this]

theorem updateAt_get_self (f : SubConnState → SubConnState) :
    ∀ (i : Nat) (l : List SubConnState),
      (updateAt i f l)[i]? = (l[i]?).map f := by
  intro i l
  induction l generalizing i with
  | nil => simp [updateAt]
  | cons x xs ih =>
    cases i with
    | zero => simp [updateAt]
    | succ n => simp [updateAt, ih n]

/-! ## Self-describing ids (schema/ids.ts)

Ids are strings of the form table:uuid; we embed them as character
lists. -/

/-- A parsed table:uuid id. -/
structure ParsedId : Type where
  table : List Char
  uuid : List Char
deriving DecidableEq

/-- Hexadecimal digit, case-insensitive, as in the UUID regex
character class. -/
def isHexChar (c : Char) : Bool :=
  c.isDigit || (Char.ofNat 97 ≤ c && c ≤ Char.ofNat 102) ||
    (Char.ofNat 65 ≤ c && c ≤ Char.ofNat 70)

/-- Split a character list at every hyphen. -/
def hyphenSplit : List Char → List (List Char)
  | [] => [[]]
  | c :: rest =>
    match hyphenSplit rest with
    | [] => [[c]]
    | g :: gs =>
      if c = Char.ofNat 45 then [] :: g :: gs else (c :: g) :: gs

/-- isUuid from schema/ids.ts: the anchored UUID_RE pattern, i.e. five
hyphen-separated groups of case-insensitive hex digits with lengths
8-4-4-4-12. -/
def isUuid (v : List Char) : Bool :=
  ((hyphenSplit v).map List.length = [8, 4, 4, 4, 12] : Bool) &&
    v.all (fun c => c = Char.ofNat 45 || isHexChar c)

/-- Split at the first colon, as value.indexOf of the separator does:
none models indexOf returning -1. -/
def splitFirstColon : List Char → Option (List Char × List Char)
  | [] => none
  | c :: rest =>
    if c = ':' then some ([], rest)
    else (splitFirstColon rest).map (fun p => (c :: p.1, p.2))

/-- parseId from schema/ids.ts: the table is everything before the first
colon and must be nonempty (separatorIndex <= 0 returns null), the rest
must satisfy isUuid. -/
def parseId (v : List Char) : Option ParsedId :=
  match splitFirstColon v with
  | none => none
  | some (table, uuid) =>
    if table = [] then none
    else if isUuid uuid then some ⟨table, uuid⟩ else none

/-- encodeId from schema/ids.ts: the self-describing table:uuid form. -/
def encodeId (table uuid : List Char) : List Char := table ++ ':' :: uuid

theorem splitFirstColon_encode (t u : List Char) (hc : ':' ∉ t) :
    splitFirstColon (t ++ ':' :: u) = some (t, u) := by
  induction t with
  | nil => simp [splitFirstColon]
  | cons c rest ih =>
    have hcc : c ≠ ':' := fun h => hc (by rw [h]; exact List.mem_cons_self _ _)
    have hrest : ':' ∉ rest := fun h => hc (List.mem_cons_of_mem _ h)
    simp only [List.cons_append, splitFirstColon, hcc, if_false]
    rw [show rest.append (':' :: u) = rest ++ ':' :: u from rfl, ih hrest]
    rfl

theorem parseId_encode (t u : List Char) (hne : t ≠ []) (hc : ':' ∉ t)
    (hu : isUuid u = true) : parseId (encodeId t u) = some ⟨t, u⟩ := by
  unfold parseId encodeId
  rw [splitFirstColon_encode t u hc]
  simp [hne, hu]

/-! ## SQL fragments of the query builder (createDb in src)

The generated SQL is embedded as a small AST; what matters for the claims
is which casts appear around the text-based jsonb extraction. -/

/-- A column expression of the generated SQL. -/
inductive SqlExpr : Type where
  /-- data ->> field : text-based jsonb extraction -/
  | jsonFieldE (f : String)
  /-- a numeric cast around an expression -/
  | castNum (e : SqlExpr)
  /-- a boolean cast around an expression -/
  | castBool (e : SqlExpr)
  /-- the id primary-key column -/
  | idCol
deriving DecidableEq

/-- jsonField from createDb. -/
def jsonField (f : String) : SqlExpr := .jsonFieldE f

/-- fieldForComparison from createDb: a numeric comparison value adds a
numeric cast, a boolean one a boolean cast, anything else leaves the
text extraction uncast. -/
def fieldForComparison (field : String) (value : JsonVal) : SqlExpr :=
  match value with
  | .num _ => .castNum (jsonField field)
  | .boolB _ => .castBool (jsonField field)
  | _ => jsonField field

/-- Errors thrown by createDb helpers (plain Error values in the source,
distinguished here by their message). -/
inductive DbErr : Type where
  /-- id belongs to one table, not the requested one -/
  | idMismatch (idTable : List Char) (tableKey : List Char)
  /-- Invalid id format -/
  | invalidIdFormat
  /-- id filters must be strings -/
  | idFilterNotString
  /-- Unknown table -/
  | unknownTable (t : List Char)
  /-- schema.parse or schema.partial().parse threw -/
  | validationFailed
deriving DecidableEq

/-- One WHERE clause of the generated SQL. -/
inductive WhereClause : Type where
  /-- id = uuid on the primary-key column -/
  | idEq (uuid : List Char)
  /-- fieldForComparison(field, value) = value -/
  | fieldEq (e : SqlExpr) (v : JsonVal)
deriving DecidableEq

/-- A filter recorded by the query builder. -/
structure QueryFilter : Type where
  field : String
  value : JsonVal
deriving DecidableEq

/-- One clause of buildWhere from createDb: the id field requires a string
value, parses it, rejects an id of another table, and compares on the
primary-key column; other fields compare through fieldForComparison. -/
def buildWhereClause (tableKey : List Char) (f : QueryFilter) :
    Except DbErr WhereClause :=
  if f.field = "id" then
    match f.value with
    | .str s =>
      match parseId s with
      | some p =>
        if p.table ≠ tableKey then .error (.idMismatch p.table tableKey)
        else .ok (.idEq p.uuid)
      | none =>
        if isUuid s then .ok (.idEq s) else .error .invalidIdFormat
    | _ => .error .idFilterNotString
  else .ok (.fieldEq (fieldForComparison f.field f.value) f.value)

/-- buildWhere from createDb, clause by clause. -/
def buildWhere (tableKey : List Char) (filters : List QueryFilter) :
    Except DbErr (List WhereClause) :=
  filters.mapM (buildWhereClause tableKey)

/-- Sort direction. -/
inductive Dir : Type where
  | asc | desc
deriving DecidableEq

/-- The order recorded by the query builder. -/
structure QueryOrder : Type where
  field : String
  direction : Dir
deriving DecidableEq

/-- The ORDER BY fragment of the generated SQL. -/
inductive OrderSql : Type where
  /-- no ORDER BY -/
  | empty
  | orderBy (e : SqlExpr) (d : Dir)
deriving DecidableEq

/-- buildOrder from createDb: the id field orders on the primary-key
column; any other field goes through fieldForComparison called with an
empty string as the comparison value. -/
def buildOrder : Option QueryOrder → OrderSql
  | none => .empty
  | some o =>
    .orderBy
      (if o.field = "id" then .idCol
       else fieldForComparison o.field (.str []))
      o.direction

/-! ## Document store (createDb in src)

The store behind the SQL runner: rows of (physical table name, uuid,
jsonb data). Executing a statement is embedded as the corresponding store
operation, and each operation also reports the statements it issued. -/

/-- An executed SQL statement, for counting what reached the runner. -/
inductive Stmt : Type where
  | insertStmt (tableName : List Char) (data : Obj)
  | selectStmt (tableName uuid : List Char)
  | updateStmt (tableName uuid : List Char) (patchData : Obj)
  | deleteStmt (tableName uuid : List Char)
deriving DecidableEq

/-- The rows of the underlying database. -/
abbrev Store := List (List Char × List Char × Obj)

/-- SELECT ... WHERE id = uuid LIMIT 1 against one physical table. -/
def findRow (store : Store) (tableName uuid : List Char) : Option Obj :=
  (store.find? (fun r => r.1 == tableName && r.2.1 == uuid)).map
    (fun r => r.2.2)

/-- A table definition as consumed by createDb: optional physical name
(table.name, defaulting to the schema key), the schema validator
(schema.parse as a partial function), and the partial-schema validator
(schema.partial().parse). -/
structure TableDefModel : Type where
  name : Option (List Char)
  validate : Obj → Option Obj
  partialValidate : Obj → Option Obj

/-- The schema map passed to createDb. -/
abbrev SchemaModel := List (List Char × TableDefModel)

/-- Schema lookup by table key. -/
def lookupTable (schema : SchemaModel) (key : List Char) :
    Option TableDefModel :=
  (schema.find? (fun p => p.1 == key)).map (fun p => p.2)

/-- tableInfo / tableDefinitionByKey from createDb: unknown keys throw,
and the physical name defaults to the key. -/
def tableInfo (schema : SchemaModel) (key : List Char) :
    Except DbErr (List Char × TableDefModel) :=
  match lookupTable schema key with
  | none => .error (.unknownTable key)
  | some d => .ok (d.name.getD key, d)

/-- resolveUuidForTable from createDb: a full table:uuid id must embed the
requested table, a bare uuid passes through, anything else is an invalid
id. The value is a string by the operation signatures. -/
def resolveUuidForTable (tableKey : List Char) (value : List Char) :
    Except DbErr (List Char) :=
  match parseId value with
  | some p =>
    if p.table ≠ tableKey then .error (.idMismatch p.table tableKey)
    else .ok p.uuid
  | none =>
    if isUuid value then .ok value else .error .invalidIdFormat

/-- Result of one store operation: the outcome, the statements that were
issued to the runner, and the store afterwards. -/
structure DbResult (α : Type) : Type where
  res : Except DbErr α
  stmts : List Stmt
  store : Store

/-- The JS object literal of get/patch results: the encoded id first and
the row data spread over it, so a data binding for id would shadow the
encoded one. -/
def spreadIdFirst (idv : List Char) (data : Obj) : Obj :=
  ("id", .str idv) :: data

/-- insert from createDb: validate against the table schema, then INSERT
the parsed value returning the database-assigned uuid, and encode the
self-describing id. The uuid the database assigns is passed in as
newUuid. -/
def insertRow (schema : SchemaModel) (store : Store) (newUuid : List Char)
    (table : List Char) (data : Obj) : DbResult (List Char) :=
  match tableInfo schema table with
  | .error e => ⟨.error e, [], store⟩
  | .ok (tableName, d) =>
    match d.validate data with
    | none => ⟨.error .validationFailed, [], store⟩
    | some parsed =>
      ⟨.ok (encodeId table newUuid), [.insertStmt tableName parsed],
        store ++ [(tableName, newUuid, parsed)]⟩

/-- get from createDb (explicit-table overload): resolve the uuid guarded
by the table embedded in the id, SELECT the row, and rebuild it with the
encoded id. -/
def getRow (schema : SchemaModel) (store : Store) (table : List Char)
    (id : List Char) : DbResult (Option Obj) :=
  match tableInfo schema table with
  | .error e => ⟨.error e, [], store⟩
  | .ok (tableName, _) =>
    match resolveUuidForTable table id with
    | .error e => ⟨.error e, [], store⟩
    | .ok uuid =>
      match findRow store tableName uuid with
      | none => ⟨.ok none, [.selectStmt tableName uuid], store⟩
      | some data =>
        ⟨.ok (some (spreadIdFirst (encodeId table uuid) data)),
          [.selectStmt tableName uuid], store⟩

/-- Replace the data of one row in place (UPDATE ... WHERE id = uuid). -/
def updateStore (store : Store) (tableName uuid : List Char)
    (newData : Obj) : Store :=
  store.map (fun r =>
    if r.1 == tableName && r.2.1 == uuid then (r.1, r.2.1, newData) else r)

/-- patch from createDb (explicit-table overload): resolve the uuid,
validate the partial data, then UPDATE data = data || parsed RETURNING;
an absent row yields null, a present one is rebuilt with the encoded id.
The jsonb concatenation is the shadowing append of the data maps. -/
def patchRow (schema : SchemaModel) (store : Store) (table : List Char)
    (id : List Char) (data : Obj) : DbResult (Option Obj) :=
  match tableInfo schema table with
  | .error e => ⟨.error e, [], store⟩
  | .ok (tableName, d) =>
    match resolveUuidForTable table id with
    | .error e => ⟨.error e, [], store⟩
    | .ok uuid =>
      match d.partialValidate data with
      | none => ⟨.error .validationFailed, [], store⟩
      | some parsed =>
        match findRow store tableName uuid with
        | none => ⟨.ok none, [.updateStmt tableName uuid parsed], store⟩
        | some old =>
          let merged := old ++ parsed
          ⟨.ok (some (spreadIdFirst (encodeId table uuid) merged)),
            [.updateStmt tableName uuid parsed],
            updateStore store tableName uuid merged⟩

/-- Modelled from the spec: the delete operation of the DocumentStore is
absent from the provided sources (only its tests and callers appear), so
it is embedded from the spec's signature delete([table], id) -> bool with
the same id resolution as get/patch: an explicit table mismatching the
id's embedded table fails with the mismatch error before any statement,
and the result reports whether a row was deleted. -/
def deleteRow (schema : SchemaModel) (store : Store) (table : List Char)
    (id : List Char) : DbResult Bool :=
  match tableInfo schema table with
  | .error e => ⟨.error e, [], store⟩
  | .ok (tableName, _) =>
    match resolveUuidForTable table id with
    | .error e => ⟨.error e, [], store⟩
    | .ok uuid =>
      match findRow store tableName uuid with
      | none => ⟨.ok false, [.deleteStmt tableName uuid], store⟩
      | some _ =>
        ⟨.ok true, [.deleteStmt tableName uuid],
          store.filter (fun r => !(r.1 == tableName && r.2.1 == uuid))⟩

theorem findRow_append_fresh (store : Store) (tableName uuid : List Char)
    (data : Obj) (hfresh : findRow store tableName uuid = none) :
    findRow (store ++ [(tableName, uuid, data)]) tableName uuid
      = some data := by
  unfold findRow at hfresh ⊢
  rw [List.find?_append]
  have h : store.find? (fun r => r.1 == tableName && r.2.1 == uuid)
      = none := by
    rcases h2 : store.find?
        (fun r => r.1 == tableName && r.2.1 == uuid) with _ | r
    · exact h2
    · rw [h2] at hfresh
      simp at hfresh
  rw [h]
  simp only [Option.none_orElse, List.find?_cons, beq_self_eq_true,
    Bool.and_self, Option.map_some]
  rfl

end Convoy

namespace Convoy

/-- C1. Single-flight with trailing coalesce: while an execution is in
flight, a burst of K >= 1 refresh offers only sets pending and never
launches a concurrent execution (the count of begun executions is
unchanged and running stays true); when the in-flight execution finishes,
exactly one trailing re-execution launches and pending is cleared. -/
theorem single_flight_trailing_coalesce (K : Nat) (hK : 1 ≤ K)
    (s : SubConnState) (hrun : s.running = true) (hpend : s.pending = false)
    (hopen : s.resClosed = false) :
    (offerBurst K s).running = true ∧
    (offerBurst K s).pending = true ∧
    (offerBurst K s).runsStarted = s.runsStarted ∧
    ∀ (outcome : Except JsError JsonVal) (ts : Nat),
      (runSubscriptionFinish outcome ts (offerBurst K s)).runsStarted =
          s.runsStarted + 1 ∧
      (runSubscriptionFinish outcome ts (offerBurst K s)).pending = false ∧
      (runSubscriptionFinish outcome ts (offerBurst K s)).running = true := by
  obtain ⟨k, rfl⟩ : ∃ k, K = k + 1 := ⟨K - 1, by omega⟩
  have hb : offerBurst (k + 1) s = { s with pending := true } :=
    offerBurst_of_running k s hrun
  rw [hb]
  refine ⟨hrun, rfl, rfl, ?_⟩
  intro outcome ts
  cases outcome with
  | ok d =>
    simp [runSubscriptionFinish, writeSse, runSubscriptionStart, hopen]
  | error e =>
    simp [runSubscriptionFinish, writeSse, runSubscriptionStart, hopen]

/-- Concrete subscription used to witness the single-flight theorem. -/
def burstSub : SubConnState :=
  { name := "todos", resClosed := false, registered := true,
    running := true, pending := false, runsStarted := 1, frames := [] }

/-- Witness for the single-flight theorem at K = 3: one in-flight
execution absorbs a burst of three offers, and finishing launches exactly
one trailing re-execution. -/
theorem single_flight_trailing_coalesce_witness :
    (offerBurst 3 burstSub).runsStarted = 1 ∧
    (runSubscriptionFinish (Except.ok JsonVal.nullV) 7
        (offerBurst 3 burstSub)).runsStarted = 2 := by
  have h := single_flight_trailing_coalesce 3 (by decide) burstSub rfl rfl rfl
  exact ⟨h.2.2.1, (h.2.2.2 (Except.ok JsonVal.nullV) 7).1⟩

/-- C8. A refresh whose query execution throws is caught per-refresh: the
normalized error is framed only onto that subscriber's stream, the stream
is not closed, the subscription stays registered, every other subscription
in the registry is untouched, and the next refresh offer re-runs the
query. -/
theorem error_frame_isolated (l : List SubConnState) (i : Nat)
    (s : SubConnState) (hget : l[i]? = some s)
    (hrun : s.running = true) (hopen : s.resClosed = false)
    (hreg : s.registered = true) (hpend : s.pending = false)
    (e : JsError) (ts : Nat) :
    (updateAt i (runSubscriptionFinish (Except.error e) ts) l)[i]? =
        some (runSubscriptionFinish (Except.error e) ts s) ∧
    (runSubscriptionFinish (Except.error e) ts s).frames =
        s.frames ++ [SseFrame.errorFrame s.name ts (normalizeError e).2] ∧
    (runSubscriptionFinish (Except.error e) ts s).resClosed = false ∧
    (runSubscriptionFinish (Except.error e) ts s).registered = true ∧
    (runSubscriptionFinish (Except.error e) ts s).running = false ∧
    (∀ j, j ≠ i →
      (updateAt i (runSubscriptionFinish (Except.error e) ts) l)[j]? =
        l[j]?) ∧
    (queueRefresh (runSubscriptionFinish (Except.error e) ts s)).runsStarted
        = s.runsStarted + 1 := by
  have hfin : runSubscriptionFinish (Except.error e) ts s =
      { s with
          running := false
          frames := s.frames ++
            [SseFrame.errorFrame s.name ts (normalizeError e).2] } := by
    simp [runSubscriptionFinish, writeSse, hopen, hpend]
  refine ⟨?_, ?_, ?_, ?_, ?_, ?_, ?_⟩
  · rw [updateAt_get_self, hget]; rfl
  · rw [hfin]
  · rw [hfin]; exact hopen
  · rw [hfin]; exact hreg
  · rw [hfin]
  · intro j hj
    exact updateAt_get_ne _ i j l (fun h => hj h.symm)
  · rw [hfin]
    simp [queueRefresh, runSubscriptionStart, hopen]

/-- First subscription of the witness registry, mid-execution. -/
def errSubA : SubConnState :=
  { name := "todos", resClosed := false, registered := true,
    running := true, pending := false, runsStarted := 1, frames := [] }

/-- Second subscription of the witness registry, idle. -/
def errSubB : SubConnState :=
  { name := "projects", resClosed := false, registered := true,
    running := false, pending := false, runsStarted := 1, frames := [] }

/-- Concrete registry used to witness error isolation. -/
def errRegistry : List SubConnState := [errSubA, errSubB]

/-- Witness for error isolation: a failing refresh of subscription 0
leaves subscription 1 untouched and keeps subscription 0 registered. -/
theorem error_frame_isolated_witness :
    (updateAt 0
        (runSubscriptionFinish (Except.error (JsError.other "boom")) 9)
        errRegistry)[1]? = errRegistry[1]? ∧
    (runSubscriptionFinish (Except.error (JsError.other "boom")) 9
        errSubA).registered = true := by
  have h := error_frame_isolated errRegistry 0 errSubA rfl
    rfl rfl rfl rfl (JsError.other "boom") 9
  exact ⟨h.2.2.2.2.2.1 1 (by decide), h.2.2.2.1⟩

/-- Concrete subscription refuting the unconditional removal in the
closed-stream claim: its stream is closed but an execution is still in
flight. -/
def closedBusySub : SubConnState :=
  { name := "todos", resClosed := true, registered := true,
    running := true, pending := false, runsStarted := 1, frames := [] }

/-- C10 counterexample: offering a refresh to a registered subscription
whose stream is closed does NOT remove it from the registry when an
execution is still in flight — queueRefresh only sets pending, so
registered stays true, contradicting the claim that the offer removes the
subscription. -/
theorem closed_stream_offer_counterexample :
    closedBusySub.resClosed = true ∧
    closedBusySub.registered = true ∧
    (queueRefresh closedBusySub).registered = true ∧
    (queueRefresh closedBusySub).pending = true := by
  decide

/-- C10 amended. Offering a refresh to a subscription with a closed
stream never starts a query execution and never writes a frame; if no
execution is in flight the offer itself removes the subscription from the
registry, and if one is in flight the offer only marks pending and the
completion of that execution removes the subscription, still without
starting a new execution or writing a frame. -/
theorem closed_stream_never_runs (s : SubConnState)
    (hclosed : s.resClosed = true) (hreg : s.registered = true) :
    (queueRefresh s).runsStarted = s.runsStarted ∧
    (queueRefresh s).frames = s.frames ∧
    (s.running = false →
      queueRefresh s = { s with registered := false }) ∧
    (s.running = true →
      ∀ (outcome : Except JsError JsonVal) (ts : Nat),
        (runSubscriptionFinish outcome ts (queueRefresh s)).registered =
            false ∧
        (runSubscriptionFinish outcome ts (queueRefresh s)).runsStarted =
            s.runsStarted ∧
        (runSubscriptionFinish outcome ts (queueRefresh s)).frames =
            s.frames) := by
  refine ⟨?_, ?_, ?_, ?_⟩
  · by_cases h : s.running <;>
      simp [queueRefresh, runSubscriptionStart, h, hclosed]
  · by_cases h : s.running <;>
      simp [queueRefresh, runSubscriptionStart, h, hclosed]
  · intro h
    simp [queueRefresh, runSubscriptionStart, h, hclosed]
  · intro h outcome ts
    have hq : queueRefresh s = { s with pending := true } := by
      simp [queueRefresh, h]
    rw [hq]
    cases outcome with
    | ok d =>
      simp [runSubscriptionFinish, writeSse, runSubscriptionStart, hclosed]
    | error e =>
      simp [runSubscriptionFinish, writeSse, runSubscriptionStart, hclosed]

/-! ## Capacity admission (createQuerySubscriptionManager / subscribe)

The capacity-relevant state of the manager: subscriptions.size and the
pendingContexts counter. Each event is one synchronous JS turn of the
subscribe flow. maxSubscriptions = 0 means unlimited, as in the source. -/

structure CapState : Type where
  /-- subscriptions.size -/
  size : Nat
  /-- pendingContexts -/
  pendingContexts : Nat
deriving DecidableEq

/-- canAccept: unlimited when maxSubscriptions is not positive, otherwise
active subscriptions plus pending context resolutions must stay below the
limit. -/
def canAccept (maxSubscriptions : Nat) (s : CapState) : Bool :=
  if maxSubscriptions = 0 then true
  else decide (s.size + s.pendingContexts < maxSubscriptions)

/-- Outcome of one subscribe-flow turn. -/
inductive CapOutcome : Type where
  /-- setupSubscription ran: SSE headers and initial frames were written
  and the subscription was added to the set -/
  | admitted
  /-- the 429 capacity rejection was sent -/
  | rejected429
  /-- the response had already closed when the async context resolved -/
  | earlyDropped
  /-- context resolution failed, 500 sent -/
  | failed500
  /-- no client-visible outcome for this turn -/
  | noChange
deriving DecidableEq

/-- Whether a turn with this outcome wrote any SSE stream framing; only
final admission (setupSubscription past the capacity re-check) does. -/
def framingWritten : CapOutcome → Bool
  | .admitted => true
  | _ => false

/-- Capacity-relevant events of the subscribe flow. -/
inductive CapEvent : Type where
  /-- subscribe with a synchronous context: capacity check, then
  setupSubscription (its re-check sees the same synchronous state) -/
  | connectSync
  /-- subscribe with a promise context: capacity check, then
  pendingContexts is incremented while the context resolves -/
  | connectAsyncStart
  /-- the async context resolved: pendingContexts is decremented, the
  response may have closed meanwhile, and capacity is re-checked before
  final admission -/
  | asyncResolveOk (resClosed : Bool)
  /-- the async context rejected: pendingContexts is decremented -/
  | asyncResolveFail
  /-- an admitted subscription's stream closed: cleanup deletes it -/
  | disconnect
deriving DecidableEq

/-- One turn of the subscribe flow, from part_007 subscribe /
setupSubscription / the context promise callbacks / cleanup. -/
def capStep (n : Nat) (s : CapState) : CapEvent → CapState × CapOutcome
  | .connectSync =>
    if canAccept n s then ({ s with size := s.size + 1 }, .admitted)
    else (s, .rejected429)
  | .connectAsyncStart =>
    if canAccept n s then
      ({ s with pendingContexts := s.pendingContexts + 1 }, .noChange)
    else (s, .rejected429)
  | .asyncResolveOk resClosed =>
    let s1 := { s with pendingContexts := s.pendingContexts - 1 }
    if resClosed then (s1, .earlyDropped)
    else if canAccept n s1 then ({ s1 with size := s1.size + 1 }, .admitted)
    else (s1, .rejected429)
  | .asyncResolveFail =>
    ({ s with pendingContexts := s.pendingContexts - 1 }, .failed500)
  | .disconnect => ({ s with size := s.size - 1 }, .noChange)

/-- Run a sequence of subscribe-flow events from the empty registry. -/
def capRun (n : Nat) (events : List CapEvent) : CapState :=
  events.foldl (fun s e => (capStep n s e).1) ⟨0, 0⟩

theorem capStep_preserves (n : Nat) (hn : 0 < n) (s : CapState)
    (e : CapEvent) (h : s.size + s.pendingContexts ≤ n) :
    ((capStep n s e).1).size + ((capStep n s e).1).pendingContexts ≤ n := by
  have hn0 : n ≠ 0 := Nat.pos_iff_ne_zero.mp hn
  cases e with
  | connectSync =>
    by_cases hc : canAccept n s = true
    · have hlt : s.size + s.pendingContexts < n := by
        simpa [canAccept, hn0] using hc
      simp only [capStep, hc, if_true]
      omega
    · simp only [capStep, Bool.not_eq_true] at hc
      simp only [capStep, hc]
      simpa using h
  | connectAsyncStart =>
    by_cases hc : canAccept n s = true
    · have hlt : s.size + s.pendingContexts < n := by
        simpa [canAccept, hn0] using hc
      simp only [capStep, hc, if_true]
      omega
    · simp only [capStep, Bool.not_eq_true] at hc
      simp only [capStep, hc]
      simpa using h
  | asyncResolveOk resClosed =>
    cases resClosed with
    | true =>
      simp only [capStep, if_true]
      omega
    | false =>
      simp only [capStep, Bool.false_eq_true, if_false]
      by_cases hc :
          canAccept n { s with pendingContexts := s.pendingContexts - 1 }
            = true
      · have hlt : s.size + (s.pendingContexts - 1) < n := by
          simpa [canAccept, hn0] using hc
        simp only [hc, if_true]
        omega
      · simp only [Bool.not_eq_true] at hc
        simp only [hc, Bool.false_eq_true, if_false]
        omega
  | asyncResolveFail =>
    simp only [capStep]
    omega
  | disconnect =>
    simp only [capStep]
    omega

theorem capRun_le (n : Nat) (hn : 0 < n) (events : List CapEvent) :
    (capRun n events).size + (capRun n events).pendingContexts ≤ n := by
  suffices h : ∀ (s : CapState), s.size + s.pendingContexts ≤ n →
      (events.foldl (fun s e => (capStep n s e).1) s).size +
        (events.foldl (fun s e => (capStep n s e).1) s).pendingContexts ≤ n
    by
    exact h ⟨0, 0⟩ (by simpa using Nat.le_of_lt hn)
  induction events with
  | nil => intro s hs; simpa using hs
  | cons e rest ih =>
    intro s hs
    exact ih ((capStep n s e).1) (capStep_preserves n hn s e hs)

/-- C2. Capacity admission: with a positive limit n, every sequence of
subscribe-flow events keeps active-plus-pending subscriptions at most n;
an over-capacity attempt (sync or async) is rejected with the 429 outcome
and writes no stream framing; and after an async context resolves,
capacity is re-checked before final admission, rejecting with 429 if the
registry filled during resolution. -/
theorem capacity_admission (n : Nat) (hn : 0 < n) :
    (∀ events : List CapEvent,
      (capRun n events).size + (capRun n events).pendingContexts ≤ n) ∧
    (∀ s : CapState, canAccept n s = false →
      capStep n s .connectSync = (s, .rejected429) ∧
      capStep n s .connectAsyncStart = (s, .rejected429)) ∧
    (∀ s : CapState,
      canAccept n { s with pendingContexts := s.pendingContexts - 1 }
          = false →
      capStep n s (.asyncResolveOk false) =
        ({ s with pendingContexts := s.pendingContexts - 1 },
          .rejected429)) ∧
    (∀ (s : CapState) (e : CapEvent),
      (capStep n s e).2 = .rejected429 →
      framingWritten (capStep n s e).2 = false) ∧
    (∀ s : CapState,
      canAccept n s = true ↔ s.size + s.pendingContexts < n) := by
  have hn0 : n ≠ 0 := Nat.pos_iff_ne_zero.mp hn
  refine ⟨capRun_le n hn, ?_, ?_, ?_, ?_⟩
  · intro s hc
    constructor <;> simp [capStep, hc]
  · intro s hc
    simp [capStep, hc]
  · intro s e h2
    rw [h2]
    rfl
  · intro s
    simp [canAccept, hn0]

/-- Witness for capacity admission at n = 1: a sync connect followed by a
second attempt keeps the registry at one subscription and rejects the
second attempt with 429 before any framing. -/
theorem capacity_admission_witness :
    (capRun 1 [.connectSync, .connectSync]).size +
        (capRun 1 [.connectSync, .connectSync]).pendingContexts ≤ 1 ∧
    capStep 1 ⟨1, 0⟩ .connectSync = (⟨1, 0⟩, .rejected429) ∧
    framingWritten (capStep 1 ⟨1, 0⟩ .connectSync).2 = false := by
  have h := capacity_admission 1 (by decide)
  refine ⟨h.1 [.connectSync, .connectSync], ?_, ?_⟩
  · exact (h.2.1 ⟨1, 0⟩ (by decide)).1
  · exact h.2.2.2.1 ⟨1, 0⟩ .connectSync (by decide)

/-! ## Client-side hub: reconnect backoff (react.ts)

State of one shared QuerySubscriptionSource; each transition is one
handler turn of the source code. -/

/-- MIN_RECONNECT_DELAY_MS from react.ts. -/
def MIN_RECONNECT_DELAY_MS : Nat := 1000

/-- MAX_RECONNECT_DELAY_MS from react.ts. -/
def MAX_RECONNECT_DELAY_MS : Nat := 15000

/-- The backoff-relevant state of a shared subscription source. -/
structure SseSourceState : Type where
  /-- whether reconnectTimer is set -/
  reconnectTimer : Bool
  /-- reconnectDelayMs -/
  reconnectDelayMs : Nat
  /-- listeners.size -/
  listeners : Nat
  /-- how many reconnect attempts (new EventSource) the timer performed -/
  reconnects : Nat
deriving DecidableEq

/-- createQuerySubscriptionSource: no timer, delay at the minimum. -/
def initialSourceState : SseSourceState :=
  { reconnectTimer := false, reconnectDelayMs := MIN_RECONNECT_DELAY_MS,
    listeners := 0, reconnects := 0 }

/-- scheduleReconnect from react.ts: a no-op when a timer is already set
or no listeners remain; otherwise the timer is armed with the current
delay and the stored delay doubles up to the cap. The returned option is
the delay the timer was armed with. -/
def scheduleReconnect (s : SseSourceState) : SseSourceState × Option Nat :=
  if s.reconnectTimer || s.listeners == 0 then (s, none)
  else
    ({ s with
        reconnectDelayMs :=
          min (s.reconnectDelayMs * 2) MAX_RECONNECT_DELAY_MS,
        reconnectTimer := true },
      some s.reconnectDelayMs)

/-- The timer callback of scheduleReconnect: clears the timer and, only
when listeners remain, closes and replaces the EventSource (counted as a
reconnect attempt). -/
def timerFire (s : SseSourceState) : SseSourceState :=
  if s.reconnectTimer then
    let s1 := { s with reconnectTimer := false }
    if s1.listeners == 0 then s1
    else { s1 with reconnects := s1.reconnects + 1 }
  else s

/-- The onopen handler of attachEventSource: clears any pending timer and
resets the delay to the minimum. -/
def onOpenReset (s : SseSourceState) : SseSourceState :=
  { s with
      reconnectTimer := false
      reconnectDelayMs := MIN_RECONNECT_DELAY_MS }

/-- Events on a shared subscription source. -/
inductive SseEvent : Type where
  /-- onerror with readyState CLOSED: a terminal transport failure -/
  | errClosed
  /-- the reconnect timer fired -/
  | fire
  /-- onopen: a successful open -/
  | openedEv
  /-- subscribeToQueryResults added a listener -/
  | addListener
  /-- an unsubscribe removed a listener (clearing the timer and closing
  the source when it was the last one) -/
  | removeListener
deriving DecidableEq

/-- One handler turn on the source state. -/
def sseStep (s : SseSourceState) : SseEvent → SseSourceState
  | .errClosed => (scheduleReconnect s).1
  | .fire => timerFire s
  | .openedEv => onOpenReset s
  | .addListener => { s with listeners := s.listeners + 1 }
  | .removeListener =>
    let s1 := { s with listeners := s.listeners - 1 }
    if s1.listeners == 0 then { s1 with reconnectTimer := false } else s1

/-- Run events from a given source state. -/
def sseRunFrom (s : SseSourceState) : List SseEvent → SseSourceState
  | [] => s
  | e :: es => sseRunFrom (sseStep s e) es

/-- Run events from the freshly created source. -/
def sseRun (events : List SseEvent) : SseSourceState :=
  sseRunFrom initialSourceState events

theorem sseStep_delay_bounds (s : SseSourceState) (e : SseEvent)
    (h1 : MIN_RECONNECT_DELAY_MS ≤ s.reconnectDelayMs)
    (h2 : s.reconnectDelayMs ≤ MAX_RECONNECT_DELAY_MS) :
    MIN_RECONNECT_DELAY_MS ≤ (sseStep s e).reconnectDelayMs ∧
    (sseStep s e).reconnectDelayMs ≤ MAX_RECONNECT_DELAY_MS := by
  have hmm : MIN_RECONNECT_DELAY_MS ≤ MAX_RECONNECT_DELAY_MS := by decide
  cases e with
  | errClosed =>
    by_cases hg : (s.reconnectTimer || s.listeners == 0) = true
    · simp only [sseStep, scheduleReconnect, hg, if_true]
      exact ⟨h1, h2⟩
    · simp only [sseStep, scheduleReconnect, hg, if_false]
      constructor
      · have : MIN_RECONNECT_DELAY_MS ≤ s.reconnectDelayMs * 2 := by omega
        exact le_min this hmm
      · exact min_le_right _ _
  | fire =>
    simp only [sseStep, timerFire]
    by_cases hg : s.reconnectTimer = true <;>
      by_cases hl : (s.listeners == 0) = true <;>
      simp [hg, hl, h1, h2]
  | openedEv =>
    simp only [sseStep, onOpenReset]
    exact ⟨le_refl _, hmm⟩
  | addListener => exact ⟨h1, h2⟩
  | removeListener =>
    simp only [sseStep]
    by_cases hl : (s.listeners - 1 == 0) = true <;> simp [hl, h1, h2]

theorem sseRun_delay_bounds (events : List SseEvent) :
    MIN_RECONNECT_DELAY_MS ≤ (sseRun events).reconnectDelayMs ∧
    (sseRun events).reconnectDelayMs ≤ MAX_RECONNECT_DELAY_MS := by
  suffices h : ∀ (s : SseSourceState),
      MIN_RECONNECT_DELAY_MS ≤ s.reconnectDelayMs →
      s.reconnectDelayMs ≤ MAX_RECONNECT_DELAY_MS →
      MIN_RECONNECT_DELAY_MS ≤ (sseRunFrom s events).reconnectDelayMs ∧
        (sseRunFrom s events).reconnectDelayMs ≤ MAX_RECONNECT_DELAY_MS
    by
    exact h initialSourceState (le_refl _) (by decide)
  induction events with
  | nil => intro s hs1 hs2; exact ⟨hs1, hs2⟩
  | cons e rest ih =>
    intro s hs1 hs2
    have hb := sseStep_delay_bounds s e hs1 hs2
    exact ih (sseStep s e) hb.1 hb.2

/-- C6. Reconnect backoff: the delay starts at the configured minimum;
each consecutive failure without an intervening open schedules with the
current delay and doubles it up to the cap, strictly increasing while
below the cap and never exceeding it; a successful open resets the delay
to the minimum; and no reconnect is scheduled (nor performed by a stale
timer) once all listeners are gone. -/
theorem reconnect_backoff :
    initialSourceState.reconnectDelayMs = MIN_RECONNECT_DELAY_MS ∧
    (∀ s : SseSourceState, s.reconnectTimer = false → 0 < s.listeners →
      (scheduleReconnect s).2 = some s.reconnectDelayMs ∧
      (scheduleReconnect s).1.reconnectDelayMs =
        min (s.reconnectDelayMs * 2) MAX_RECONNECT_DELAY_MS ∧
      (0 < s.reconnectDelayMs →
        s.reconnectDelayMs < MAX_RECONNECT_DELAY_MS →
        s.reconnectDelayMs < (scheduleReconnect s).1.reconnectDelayMs) ∧
      (scheduleReconnect s).1.reconnectDelayMs ≤ MAX_RECONNECT_DELAY_MS) ∧
    (∀ events : List SseEvent,
      MIN_RECONNECT_DELAY_MS ≤ (sseRun events).reconnectDelayMs ∧
      (sseRun events).reconnectDelayMs ≤ MAX_RECONNECT_DELAY_MS) ∧
    (∀ s : SseSourceState,
      (onOpenReset s).reconnectDelayMs = MIN_RECONNECT_DELAY_MS) ∧
    (∀ s : SseSourceState, s.listeners = 0 →
      scheduleReconnect s = (s, none)) ∧
    (∀ s : SseSourceState, s.listeners = 0 →
      (timerFire s).reconnects = s.reconnects) := by
  refine ⟨rfl, ?_, sseRun_delay_bounds, fun s => rfl, ?_, ?_⟩
  · intro s h0 hl
    have hne : s.listeners ≠ 0 := Nat.pos_iff_ne_zero.mp hl
    have hg : (s.reconnectTimer || (s.listeners == 0)) = false := by
      simp [h0, hne]
    refine ⟨?_, ?_, ?_, ?_⟩
    · simp only [scheduleReconnect, hg, Bool.false_eq_true, if_false]
    · simp only [scheduleReconnect, hg, Bool.false_eq_true, if_false]
    · intro hp hlt
      simp only [scheduleReconnect, hg, Bool.false_eq_true, if_false]
      exact lt_min (by omega) hlt
    · simp only [scheduleReconnect, hg, Bool.false_eq_true, if_false]
      exact min_le_right _ _
  · intro s h
    simp [scheduleReconnect, h]
  · intro s h
    by_cases ht : s.reconnectTimer = true <;> simp [timerFire, ht, h]

/-- Witness for the backoff theorem: a first failure schedules at 1000ms
and doubles the stored delay to 2000ms, an open resets an 8000ms delay to
1000ms, and with zero listeners nothing is scheduled. -/
theorem reconnect_backoff_witness :
    (scheduleReconnect ⟨false, 1000, 1, 0⟩).2 = some 1000 ∧
    (scheduleReconnect ⟨false, 1000, 1, 0⟩).1.reconnectDelayMs = 2000 ∧
    (onOpenReset ⟨true, 8000, 1, 3⟩).reconnectDelayMs = 1000 ∧
    scheduleReconnect ⟨false, 4000, 0, 5⟩ = (⟨false, 4000, 0, 5⟩, none)
    := by
  have h := reconnect_backoff
  refine ⟨(h.2.1 ⟨false, 1000, 1, 0⟩ rfl (by decide)).1, ?_,
    h.2.2.2.1 ⟨true, 8000, 1, 3⟩, h.2.2.2.2.1 ⟨false, 4000, 0, 5⟩ rfl⟩
  have h2 := (h.2.1 ⟨false, 1000, 1, 0⟩ rfl (by decide)).2.1
  rw [h2]
  decide

/-! ## Client-side hub: reconnect-triggered resync (react.ts useQuery)

The onStatus handler of useQuery, over the sseWasOpenRef and
sseEverConnectedRef refs. The guard g is the enabled-and-args-present
condition around the refetch call; the returned number counts refetch
calls issued by the handler turn. -/

/-- The state field of a QuerySubscriptionStatus. -/
inductive SseStatusState : Type where
  | openSt | connectingSt | closedSt
deriving DecidableEq

/-- The two refs the onStatus handler reads and writes. -/
structure HubQueryRefs : Type where
  sseWasOpen : Bool
  sseEverConnected : Bool
deriving DecidableEq

/-- The onStatus handler from useQuery: on an open status it captures the
previous wasOpen, marks wasOpen, refetches only when the source had
connected before and was not open just before (guarded by g), then marks
everConnected; any other status clears wasOpen. -/
def onStatusStep (g : Bool) (st : SseStatusState) (s : HubQueryRefs) :
    HubQueryRefs × Nat :=
  match st with
  | .openSt =>
    let wasOpen := s.sseWasOpen
    let refetches := if s.sseEverConnected && !wasOpen && g then 1 else 0
    (⟨true, true⟩, refetches)
  | _ => (⟨false, s.sseEverConnected⟩, 0)

/-- Fold a status trace through the handler, counting refetches. -/
def runStatusesFrom (g : Bool) (s : HubQueryRefs) :
    List SseStatusState → HubQueryRefs × Nat
  | [] => (s, 0)
  | st :: rest =>
    let r := onStatusStep g st s
    let rest2 := runStatusesFrom g r.1 rest
    (rest2.1, r.2 + rest2.2)

/-- A status trace from the initial refs of a fresh subscribe effect. -/
def runStatuses (g : Bool) (l : List SseStatusState) : HubQueryRefs × Nat :=
  runStatusesFrom g ⟨false, false⟩ l

theorem runStatusesFrom_no_open (g : Bool) (l : List SseStatusState)
    (h : SseStatusState.openSt ∉ l) :
    ∀ s : HubQueryRefs,
      (runStatusesFrom g s l).1.sseEverConnected = s.sseEverConnected ∧
      (runStatusesFrom g s l).2 = 0 := by
  induction l with
  | nil => intro s; exact ⟨rfl, rfl⟩
  | cons st rest ih =>
    intro s
    have hst : st ≠ .openSt := fun he => h (he ▸ List.mem_cons_self _ _)
    have hrest : SseStatusState.openSt ∉ rest :=
      fun he => h (List.mem_cons_of_mem _ he)
    cases st with
    | openSt => exact absurd rfl hst
    | connectingSt =>
      have hr := ih hrest ⟨false, s.sseEverConnected⟩
      exact ⟨hr.1, by simp [runStatusesFrom, onStatusStep, hr.2]⟩
    | closedSt =>
      have hr := ih hrest ⟨false, s.sseEverConnected⟩
      exact ⟨hr.1, by simp [runStatusesFrom, onStatusStep, hr.2]⟩

/-- C5. Reconnect-triggered resync: a status trace with no open event
issues no refetch and leaves everConnected false, so the very first open
issues no extra refetch; an open arriving after the source had connected
before but was not open just before (reconnect after loss) issues exactly
one refetch; an open while already open issues none; non-open statuses
issue none and clear wasOpen; and the open-loss-reopen scenario issues
exactly one refetch in total. -/
theorem reconnect_resync :
    (∀ (g : Bool) (l : List SseStatusState), SseStatusState.openSt ∉ l →
      (runStatuses g l).1.sseEverConnected = false ∧
      (runStatuses g l).2 = 0) ∧
    (∀ (g : Bool) (l : List SseStatusState), SseStatusState.openSt ∉ l →
      (onStatusStep g .openSt (runStatuses g l).1).2 = 0) ∧
    (∀ (g : Bool) (s : HubQueryRefs), s.sseEverConnected = false →
      (onStatusStep g .openSt s).2 = 0) ∧
    (∀ s : HubQueryRefs, s.sseEverConnected = true →
      s.sseWasOpen = false → (onStatusStep true .openSt s).2 = 1) ∧
    (∀ (g : Bool) (s : HubQueryRefs), s.sseWasOpen = true →
      (onStatusStep g .openSt s).2 = 0) ∧
    (∀ (g : Bool) (st : SseStatusState) (s : HubQueryRefs),
      st ≠ .openSt → (onStatusStep g st s).2 = 0 ∧
        (onStatusStep g st s).1.sseWasOpen = false) ∧
    (runStatuses true [.openSt, .closedSt, .openSt]).2 = 1 := by
  have hno : ∀ (g : Bool) (l : List SseStatusState),
      SseStatusState.openSt ∉ l →
      (runStatuses g l).1.sseEverConnected = false ∧
      (runStatuses g l).2 = 0 := by
    intro g l h
    exact runStatusesFrom_no_open g l h ⟨false, false⟩
  refine ⟨hno, ?_, ?_, ?_, ?_, ?_, ?_⟩
  · intro g l h
    have he := (hno g l h).1
    simp [onStatusStep, he]
  · intro g s h
    simp [onStatusStep, h]
  · intro s h1 h2
    simp [onStatusStep, h1, h2]
  · intro g s h
    simp [onStatusStep, h]
  · intro g st s h
    cases st with
    | openSt => exact absurd rfl h
    | connectingSt => exact ⟨rfl, rfl⟩
    | closedSt => exact ⟨rfl, rfl⟩
  · decide

/-- Witness for the resync theorem: a reopen after loss issues exactly
one refetch, and the open-loss-reopen trace issues one in total. -/
theorem reconnect_resync_witness :
    (onStatusStep true .openSt ⟨false, true⟩).2 = 1 ∧
    (runStatuses true [.openSt, .closedSt, .openSt]).2 = 1 := by
  have h := reconnect_resync
  exact ⟨h.2.2.2.1 ⟨false, true⟩ rfl rfl, h.2.2.2.2.2.2⟩

theorem spreadIdFirst_append_equiv (idv : List Char) (parsed : Obj)
    (hid : lookupObj parsed "id" = none) :
    objEquiv (spreadIdFirst idv parsed)
      (parsed ++ [("id", JsonVal.str idv)]) := by
  intro k
  by_cases hk : ("id" : String) = k
  · rw [← hk]
    rw [lookupObj_append]
    simp [spreadIdFirst, lookupObj, hid]
  · rw [lookupObj_append]
    cases hp : lookupObj parsed k <;>
      simp [spreadIdFirst, lookupObj, hp, hk]

/-- C3. Round-trip: inserting a schema-accepted value and getting it back
by the returned id yields a row deep-equal to the validated value extended
with the id field, and the returned id is the self-describing table:uuid
form. -/
theorem insert_get_roundtrip
    (schema : SchemaModel) (store : Store) (t uuid : List Char)
    (d : TableDefModel) (v parsed : Obj)
    (ht : lookupTable schema t = some d)
    (hv : d.validate v = some parsed)
    (hidfree : lookupObj parsed "id" = none)
    (htne : t ≠ []) (hcolon : ':' ∉ t) (hu : isUuid uuid = true)
    (hfresh : findRow store (d.name.getD t) uuid = none) :
    (insertRow schema store uuid t v).res = .ok (encodeId t uuid) ∧
    encodeId t uuid = t ++ ':' :: uuid ∧
    ∃ row,
      (getRow schema (insertRow schema store uuid t v).store t
          (encodeId t uuid)).res = .ok (some row) ∧
      objEquiv row (parsed ++ [("id", JsonVal.str (encodeId t uuid))]) := by
  have hinfo : tableInfo schema t = .ok (d.name.getD t, d) := by
    unfold tableInfo
    rw [ht]
  have hins : insertRow schema store uuid t v =
      ⟨.ok (encodeId t uuid), [.insertStmt (d.name.getD t) parsed],
        store ++ [(d.name.getD t, uuid, parsed)]⟩ := by
    simp only [insertRow, hinfo, hv]
  have hres : resolveUuidForTable t (encodeId t uuid) = .ok uuid := by
    unfold resolveUuidForTable
    rw [parseId_encode t uuid htne hcolon hu]
    simp
  have hrow := findRow_append_fresh store (d.name.getD t) uuid parsed hfresh
  refine ⟨by rw [hins], rfl,
    spreadIdFirst (encodeId t uuid) parsed, ?_, ?_⟩
  · rw [hins]
    simp only [getRow, hinfo, hres, hrow]
  · exact spreadIdFirst_append_equiv _ parsed hidfree

/-- Demo table definition used by the store witnesses: an identity
validator standing for a zod schema that accepts the given values. -/
def usersDef : TableDefModel :=
  { name := none, validate := fun o => some o,
    partialValidate := fun o => some o }

/-- Schema key of the demo users table. -/
def usersKey : List Char := "users".toList

/-- Schema key of a second table, not the one of the demo rows. -/
def projectsKey : List Char := "projects".toList

/-- Demo schema for the store witnesses. -/
def demoSchema : SchemaModel := [(usersKey, usersDef)]

/-- A concrete uuid as the database would assign. -/
def demoUuid : List Char := "123e4567-e89b-12d3-a456-426614174000".toList

/-- The demo row value of spec Scenario A. -/
def demoVal : Obj := [("deviceId", JsonVal.str "abc".toList)]

/-- Witness for the round-trip theorem at Scenario A: inserting the users
row and getting it back by the returned users:uuid id. -/
theorem insert_get_roundtrip_witness :
    (insertRow demoSchema [] demoUuid usersKey demoVal).res =
        .ok (encodeId usersKey demoUuid) ∧
    ∃ row,
      (getRow demoSchema (insertRow demoSchema [] demoUuid usersKey
          demoVal).store usersKey (encodeId usersKey demoUuid)).res =
        .ok (some row) ∧
      objEquiv row
        (demoVal ++ [("id", JsonVal.str (encodeId usersKey demoUuid))])
    := by
  have h := insert_get_roundtrip demoSchema [] usersKey demoUuid usersDef
    demoVal demoVal rfl rfl rfl (by decide) (by decide) (by decide) rfl
  exact ⟨h.1, h.2.2⟩

/-- C4. Table mismatch: get, patch and delete with an explicit table and
an id embedding a different table all fail with the id-mismatch error and
issue no SQL statement, and an id filter in the query builder fails the
same way. -/
theorem table_mismatch_rejected
    (schema : SchemaModel) (store : Store) (t tBad uuid : List Char)
    (d : TableDefModel) (p : Obj)
    (ht : lookupTable schema t = some d)
    (hne : tBad ≠ t) (hbne : tBad ≠ []) (hbc : ':' ∉ tBad)
    (hu : isUuid uuid = true) :
    getRow schema store t (encodeId tBad uuid) =
      ⟨.error (.idMismatch tBad t), [], store⟩ ∧
    patchRow schema store t (encodeId tBad uuid) p =
      ⟨.error (.idMismatch tBad t), [], store⟩ ∧
    deleteRow schema store t (encodeId tBad uuid) =
      ⟨.error (.idMismatch tBad t), [], store⟩ ∧
    buildWhereClause t ⟨"id", .str (encodeId tBad uuid)⟩ =
      .error (.idMismatch tBad t) := by
  have hinfo : tableInfo schema t = .ok (d.name.getD t, d) := by
    unfold tableInfo
    rw [ht]
  have hres : resolveUuidForTable t (encodeId tBad uuid) =
      .error (.idMismatch tBad t) := by
    unfold resolveUuidForTable
    rw [parseId_encode tBad uuid hbne hbc hu]
    simp [hne]
  refine ⟨?_, ?_, ?_, ?_⟩
  · simp only [getRow, hinfo, hres]
  · simp only [patchRow, hinfo, hres]
  · simp only [deleteRow, hinfo, hres]
  · simp [buildWhereClause, parseId_encode tBad uuid hbne hbc hu, hne]

/-- Witness for the table-mismatch theorem: a projects:uuid id offered to
the users table is rejected with the mismatch error and no statement. -/
theorem table_mismatch_rejected_witness :
    (getRow demoSchema [] usersKey (encodeId projectsKey demoUuid)).res =
        .error (.idMismatch projectsKey usersKey) ∧
    (deleteRow demoSchema [] usersKey (encodeId projectsKey demoUuid)).stmts
        = [] := by
  have h := table_mismatch_rejected demoSchema [] usersKey projectsKey
    demoUuid usersDef [] rfl (by decide) (by decide) (by decide) (by decide)
  constructor
  · rw [h.1]
  · rw [h.2.2.1]

/-- C9. patch on a well-formed id of the requested table whose row does
not exist returns null rather than an error. -/
theorem patch_missing_returns_null
    (schema : SchemaModel) (store : Store) (t uuid : List Char)
    (d : TableDefModel) (p parsed : Obj)
    (ht : lookupTable schema t = some d)
    (htne : t ≠ []) (hcolon : ':' ∉ t) (hu : isUuid uuid = true)
    (hp : d.partialValidate p = some parsed)
    (hmiss : findRow store (d.name.getD t) uuid = none) :
    (patchRow schema store t (encodeId t uuid) p).res = .ok none := by
  have hinfo : tableInfo schema t = .ok (d.name.getD t, d) := by
    unfold tableInfo
    rw [ht]
  have hres : resolveUuidForTable t (encodeId t uuid) = .ok uuid := by
    unfold resolveUuidForTable
    rw [parseId_encode t uuid htne hcolon hu]
    simp
  simp only [patchRow, hinfo, hres, hp, hmiss]

/-- Witness for the patch-on-absent-row theorem on an empty store. -/
theorem patch_missing_returns_null_witness :
    (patchRow demoSchema [] usersKey (encodeId usersKey demoUuid)
        [("deviceId", JsonVal.str "xyz".toList)]).res = .ok none := by
  exact patch_missing_returns_null demoSchema [] usersKey demoUuid usersDef
    [("deviceId", JsonVal.str "xyz".toList)]
    [("deviceId", JsonVal.str "xyz".toList)] rfl (by decide) (by decide)
    (by decide) rfl rfl

/-- C7 counterexample: a field compared against a numeric literal gets
the numeric cast in the WHERE clause, but ordering on that same field
never casts — buildOrder always passes an empty string to
fieldForComparison, so the ORDER BY fragment keeps the uncast text
extraction, contradicting the claim that ordering on such fields behaves
as the underlying type. -/
theorem order_cast_counterexample :
    buildWhereClause usersKey ⟨"count", .num 5⟩ =
      .ok (.fieldEq (.castNum (.jsonFieldE "count")) (.num 5)) ∧
    buildOrder (some ⟨"count", .asc⟩) =
      .orderBy (.jsonFieldE "count") .asc ∧
    OrderSql.orderBy (.jsonFieldE "count") .asc ≠
      OrderSql.orderBy (.castNum (.jsonFieldE "count")) .asc := by
  refine ⟨rfl, rfl, ?_⟩
  decide

/-- C7 amended. Equality filtering casts per the comparison literal: a
numeric literal adds a numeric cast and a boolean literal a boolean cast,
so equality behaves as the underlying type; ordering, however, always
uses the uncast text extraction (buildOrder calls fieldForComparison with
an empty-string value), so ORDER BY on such fields compares as text. -/
theorem comparison_casts (tk : List Char) (f : String) (hf : f ≠ "id") :
    (∀ n : Int, buildWhereClause tk ⟨f, .num n⟩ =
      .ok (.fieldEq (.castNum (.jsonFieldE f)) (.num n))) ∧
    (∀ b : Bool, buildWhereClause tk ⟨f, .boolB b⟩ =
      .ok (.fieldEq (.castBool (.jsonFieldE f)) (.boolB b))) ∧
    (∀ dir : Dir, buildOrder (some ⟨f, dir⟩) =
      .orderBy (.jsonFieldE f) dir) ∧
    (∀ dir : Dir, buildOrder (some ⟨"id", dir⟩) = .orderBy .idCol dir) := by
  refine ⟨?_, ?_, ?_, ?_⟩
  · intro n
    simp [buildWhereClause, fieldForComparison, jsonField, hf]
  · intro b
    simp [buildWhereClause, fieldForComparison, jsonField, hf]
  · intro dir
    simp [buildOrder, fieldForComparison, jsonField, hf]
  · intro dir
    simp [buildOrder]

/-- Witness for the comparison-cast theorem on the age field. -/
theorem comparison_casts_witness :
    buildWhereClause usersKey ⟨"age", .num 30⟩ =
      .ok (.fieldEq (.castNum (.jsonFieldE "age")) (.num 30)) ∧
    buildOrder (some ⟨"age", .asc⟩) = .orderBy (.jsonFieldE "age") .asc
    := by
  have h := comparison_casts usersKey "age" (by decide)
  exact ⟨h.1 30, h.2.2.1 .asc⟩

/-- Concrete idle subscription with a closed stream. -/
def closedIdleSub : SubConnState :=
  { name := "todos", resClosed := true, registered := true,
    running := false, pending := false, runsStarted := 2, frames := [] }

/-- Witness for the closed-stream theorem: an idle closed-stream
subscription is removed by the offer and no execution starts. -/
theorem closed_stream_never_runs_witness :
    (queueRefresh closedIdleSub).runsStarted = 2 ∧
    queueRefresh closedIdleSub = { closedIdleSub with registered := false }
    := by
  have h := closed_stream_never_runs closedIdleSub rfl rfl
  exact ⟨h.1, h.2.2.1 rfl⟩

end Convoy
